import Mathlib

/-!
Shallow embedding of the httpland cors-middleware repository
(src/middleware.ts, src/deps.ts, src/utils.ts) together with proofs of the
frozen specification claims.

Headers objects are modelled as association lists whose stored keys are
lower-cased (the platform `Headers` class is case-insensitive on names);
`set` replaces every entry of the key.  Handlers may fail, modelling a
rejected promise from the downstream handler, so middleware results live in
`Except String Response`.
-/

namespace CorsMw

/-- A header set: ordered field-name/field-value pairs, names stored lower-cased. -/
abbrev HeaderSet := List (String × String)

/-- ASCII lower-casing of one character (`Headers` normalizes ASCII names). -/
def lowerChar (c : Char) : Char :=
  if 65 ≤ c.toNat ∧ c.toNat ≤ 90 then Char.ofNat (c.toNat + 32) else c

/-- Case-insensitive canonical form of a header name. -/
def hKey (name : String) : String := ⟨name.data.map lowerChar⟩

/-- First value stored under an (already canonical) key. -/
def hlookup : HeaderSet → String → Option String
  | [], _ => none
  | p :: rest, key => if p.1 == key then some p.2 else hlookup rest key

/-- `Headers.get`: value under a name, case-insensitively. -/
def hget (hs : HeaderSet) (name : String) : Option String :=
  hlookup hs (hKey name)

/-- `Headers.has`. -/
def hhas (hs : HeaderSet) (name : String) : Bool :=
  (hget hs name).isSome

/-- Remove every entry stored under the (canonical) key. -/
def hremove (hs : HeaderSet) (key : String) : HeaderSet :=
  hs.filter (fun p => p.1 != key)

/-- `Headers.set`: replace any entry of the name by the single new pair. -/
def hset (hs : HeaderSet) (name value : String) : HeaderSet :=
  hremove hs (hKey name) ++ [(hKey name, value)]

/-- `new Headers([[k1, v1], ...])`. -/
def hFromList (l : List (String × String)) : HeaderSet :=
  l.foldl (fun acc p => hset acc p.1 p.2) []

/-- `mergeHeaders` from src/deps.ts: copy `left`, then `set` every pair of `right`.
Values from `right` win on name collision. -/
def mergeHeaders (left right : HeaderSet) : HeaderSet :=
  right.foldl (fun acc p => hset acc p.1 p.2) left

/-- Well-formedness every real `Headers` object enjoys: stored names are
pairwise distinct and already lower-cased. -/
def wfHeaders (hs : HeaderSet) : Prop :=
  hs.Pairwise (fun p q => p.1 ≠ q.1) ∧ ∀ p ∈ hs, hKey p.1 = p.1

instance (hs : HeaderSet) : Decidable (wfHeaders hs) := by
  unfold wfHeaders; infer_instance

/-- `Array.prototype.join(sep)` on the element list. -/
def joinSep (sep : String) : List String → String
  | [] => ""
  | [x] => x
  | x :: y :: rest => x ++ sep ++ joinSep sep (y :: rest)

/-- Modelled from the spec: the `append` helper of vary@1.0.0, re-exported by
src/deps.ts (its body is not under src/).  If the existing value is empty the
result is the values to add joined by `", "`; otherwise the joined values are
appended after `", "`.  No de-duplication is performed. -/
def append (existingValue : String) (toAdd : List String) : String :=
  if existingValue == "" then joinSep ", " toAdd
  else existingValue ++ ", " ++ joinSep ", " toAdd

/-- Modelled from the spec: `Header.Origin` of src/constants.ts (file absent from
src/); src/middleware_test.ts equates it with the literal "origin". -/
def hdrOrigin : String := "origin"

/-- Modelled from the spec: `Header.Vary` of src/constants.ts (file absent from
src/); src/middleware_test.ts equates it with the literal "vary". -/
def hdrVary : String := "vary"

/-- `CORSHeader` enum values of src/deps.ts. -/
def AccessControlAllowOrigin : String := "access-control-allow-origin"

def AccessControlAllowCredentials : String := "access-control-allow-credentials"

def AccessControlAllowMethods : String := "access-control-allow-methods"

def AccessControlAllowHeaders : String := "access-control-allow-headers"

def AccessControlExposeHeaders : String := "access-control-expose-headers"

def AccessControlMaxAge : String := "access-control-max-age"

def AccessControlRequestMethod : String := "access-control-request-method"

def AccessControlRequestHeaders : String := "access-control-request-headers"

/-- An HTTP request: method and headers (body and target play no role here). -/
structure Request where
  method : String
  headers : HeaderSet

/-- An HTTP response. -/
structure Response where
  body : Option String
  status : Nat
  statusText : String
  headers : HeaderSet

/-- `ResponseInit` overrides accepted by `fromResponse`. -/
structure RespInit where
  headers : Option HeaderSet
  status : Option Nat
  statusText : Option String

/-- `fromResponse` from src/utils.ts: shallow copy with selected overrides. -/
def fromResponse (response : Response) (init : RespInit) : Response :=
  ⟨response.body,
   init.status.getD response.status,
   init.statusText.getD response.statusText,
   init.headers.getD response.headers⟩

/-- A downstream handler; `.error` models a rejected promise. -/
abbrev Handler := Request → Except String Response

/-- `isCORSRequest` from src/utils.ts. -/
def isCORSRequest (request : Request) : Bool :=
  hhas request.headers hdrOrigin

/-- `isCORSPreflightRequest` from src/utils.ts. -/
def isCORSPreflightRequest (request : Request) : Bool :=
  isCORSRequest request &&
  request.method == "OPTIONS" &&
  hhas request.headers AccessControlRequestMethod &&
  hhas request.headers AccessControlRequestHeaders

/-- Modelled from the spec: the character class of `reToken` from src/_abnf.ts
(file absent from src/): RFC 9110 `tchar` — ALPHA, DIGIT or one of the
listed symbols (the list includes the apostrophe and the backquote,
written by code point). -/
def isTchar (c : Char) : Bool :=
  c.isAlpha || c.isDigit ||
  [ '!', '#', '$', '%', '&', '*', '+', '-', '.', '^', '_', '|', '~',
    Char.ofNat 39, Char.ofNat 96 ].contains c

/-- Modelled from the spec: `reToken` from src/_abnf.ts (file absent from src/):
a `token` is a non-empty sequence of `tchar`. -/
def reToken (s : String) : Bool :=
  s != "" && s.data.all isTchar

/-- One segment of an instance path: a string key or a numeric index. -/
inductive PathSeg where
  | str : String → PathSeg
  | num : Nat → PathSeg

/-- Rendering of a single path segment (`cur.toString()`). -/
def segString : PathSeg → String
  | .str s => s
  | .num n => toString n

/-- `stringifyInstancePath` from src/utils.ts: first segment bare, then `.s`
for string segments and `[n]` for numeric ones. -/
def stringifyInstancePath (paths : List PathSeg) : String :=
  (paths.foldl
    (fun (acc : String × Nat) cur =>
      (if acc.2 == 0 then segString cur
       else acc.1 ++ (match cur with
         | .str s => "." ++ s
         | .num n => "[" ++ toString n ++ "]"), acc.2 + 1))
    ("", 0)).1

/-- `createAssertTokens` from src/middleware.ts applied by `forEach`: walk a
list with its index, failing on the first entry that is not a valid token,
with the exact message built there. -/
def assertTokens (subject expected : String) : List String → Nat → Except String Unit
  | [], _ => .ok ()
  | x :: xs, i =>
    if reToken x then assertTokens subject expected xs (i + 1)
    else .error (stringifyInstancePath [.str subject, .num i] ++
      " is invalid " ++ expected ++ " format. \"" ++ x ++ "\"")

/-- A JavaScript number as far as `maxAge` is concerned: NaN or a rational. -/
inductive JSNumber where
  | nan : JSNumber
  | val : ℚ → JSNumber

/-- Template-literal rendering of a `maxAge` number (only integers and NaN
occur in validated or erroneous configurations of interest). -/
def jsNumberString : JSNumber → String
  | .nan => "NaN"
  | .val q => if q.den == 1 then toString q.num else toString q

/-- `isNonNegativeInteger` backing `assertNonNegativeInteger` (src/utils.ts /
the assertion dependency): `Number.isInteger(input) && input >= 0`. -/
def isNonNegativeInteger : JSNumber → Bool
  | .nan => false
  | .val q => q.den == 1 && decide (0 ≤ q.num)

/-- The declared type of `allowCredentials` in src/middleware.ts:
`true | "true"` (the literal boolean `true` or the literal string). -/
inductive CredValue where
  | boolTrue : CredValue
  | strTrue : CredValue

/-- `allowCredentials?.toString()`: both inhabitants serialize to "true". -/
def credString : CredValue → String
  | .boolTrue => "true"
  | .strTrue => "true"

/-- One entry of a configured `allowOrigins` list: a literal string or a
RegExp, the latter modelled by its `test` predicate. -/
inductive OriginPattern where
  | literal : String → OriginPattern
  | regex : (String → Bool) → OriginPattern

/-- `match` from src/utils.ts: string equality for literals, `test` for patterns. -/
def matchPattern (input : String) : OriginPattern → Bool
  | .literal s => input == s
  | .regex t => t input

/-- `createOriginMatcher` from src/middleware.ts. -/
def createOriginMatcher (allowOrigins : List OriginPattern) : String → Bool :=
  fun origin => allowOrigins.any (fun pattern => matchPattern origin pattern)

/-- The `allowOrigins` option: the wildcard or an explicit list. -/
inductive AllowOrigins where
  | star : AllowOrigins
  | list : List OriginPattern → AllowOrigins

/-- `getAllowedOrigin` from src/middleware.ts. -/
def getAllowedOrigin (origin : String) (check : Option (String → Bool)) : String :=
  match check with
  | none => "*"
  | some c => if c origin then origin else ""

/-- The context `cors` binds into `_cors` (option strings pre-serialized). -/
structure CORSContext where
  matchOrigin : Option (String → Bool)
  allowCredentials : Option String
  exposeHeaders : Option String

/-- The `left` header set `_cors` builds for a CORS request (src/middleware.ts):
`Access-Control-Allow-Origin` always, `Access-Control-Allow-Credentials` under
the truthiness test of the serialized option, `Access-Control-Expose-Headers`
under the truthiness test and only when the request is not a preflight
request.  Factored out of `_cors` so the lemmas below can name it. -/
def corsLeft (context : CORSContext) (request : Request) : HeaderSet :=
  let origin := (hget request.headers hdrOrigin).getD ""
  let left := hFromList
    [(AccessControlAllowOrigin, getAllowedOrigin origin context.matchOrigin)]
  let left := match context.allowCredentials with
    | some s => if s != "" then hset left AccessControlAllowCredentials s else left
    | none => left
  match context.exposeHeaders with
  | some s =>
    if s != "" && !(isCORSPreflightRequest request) then
      hset left AccessControlExposeHeaders s
    else left
  | none => left

/-- `_cors` from src/middleware.ts.  The downstream response's headers are
copied with `Vary: ... , origin` appended; for CORS requests the computed
access-control headers form the base that the downstream headers are merged
onto.  A failure of `next` propagates. -/
def _cors (context : CORSContext) (request : Request) (next : Handler) :
    Except String Response :=
  match next request with
  | .error e => .error e
  | .ok response =>
    let varyValue := (hget response.headers hdrVary).getD ""
    let finalVary := append varyValue [hdrOrigin]
    let headers := mergeHeaders response.headers (hFromList [(hdrVary, finalVary)])
    if !(isCORSRequest request) then
      .ok (fromResponse response ⟨some headers, none, none⟩)
    else
      let finalHeaders := mergeHeaders (corsLeft context request) headers
      .ok (fromResponse response ⟨some finalHeaders, none, none⟩)

/-- The options record of `cors`. -/
structure CORSHeadersOpts where
  allowOrigins : Option AllowOrigins
  allowCredentials : Option CredValue
  exposeHeaders : Option (List String)

/-- `cors` from src/middleware.ts: validate `exposeHeaders`, build the origin
matcher, pre-serialize the context.  The result is the context `_cors` is
bound with; a validation failure is the synchronously thrown error. -/
def cors (options : CORSHeadersOpts) : Except String CORSContext :=
  let allowOrigins := options.allowOrigins.getD .star
  match (match options.exposeHeaders with
         | some hs => assertTokens "exposeHeaders" "<field-name>" hs 0
         | none => .ok ()) with
  | .error e => .error e
  | .ok _ =>
    let matchOrigin := match allowOrigins with
      | .star => none
      | .list l => some (createOriginMatcher l)
    .ok ⟨matchOrigin,
         options.allowCredentials.map credString,
         options.exposeHeaders.map (joinSep ", ")⟩

/-- The context `preflight` binds into `_preflight`. -/
structure PreflightContext where
  matchOrigin : Option (String → Bool)
  allowCredentials : Option String
  allowHeaders : Option String
  allowMethods : Option String
  maxAge : Option String
  status : Option Nat

/-- `varyCandidates` from src/middleware.ts. -/
def varyCandidates : List String :=
  [hdrOrigin, AccessControlRequestMethod, AccessControlRequestHeaders]

/-- The preflight short-circuit branch of `_preflight`: synthesize a response
with null body, the configured status (default 204) and the preflight header
set.  The non-null assertions (`!`) of the source are modelled as explicit
failure points. -/
def _preflightSynth (context : PreflightContext) (request : Request) :
    Except String Response :=
  match hget request.headers hdrOrigin with
  | none => .error "origin is null"
  | some origin =>
    match (match context.allowHeaders with
           | some v => some v
           | none => hget request.headers AccessControlRequestHeaders) with
    | none => .error "access-control-request-headers is null"
    | some allowHeadersValue =>
      match (match context.allowMethods with
             | some v => some v
             | none => hget request.headers AccessControlRequestMethod) with
      | none => .error "access-control-request-method is null"
      | some allowMethodsValue =>
        let headers := hFromList
          [(AccessControlAllowOrigin, getAllowedOrigin origin context.matchOrigin),
           (AccessControlAllowHeaders, allowHeadersValue),
           (AccessControlAllowMethods, allowMethodsValue),
           (hdrVary, joinSep ", " varyCandidates)]
        let headers := match context.maxAge with
          | some m => hset headers AccessControlMaxAge m
          | none => headers
        let headers := match context.allowCredentials with
          | some c => hset headers AccessControlAllowCredentials c
          | none => headers
        .ok ⟨none, context.status.getD 204, "", headers⟩

/-- `_preflight` from src/middleware.ts: pass non-OPTIONS requests through
untouched; append the three vary candidates to OPTIONS requests that are not
full preflight requests; short-circuit full preflight requests without
invoking `next`. -/
def _preflight (context : PreflightContext) (request : Request) (next : Handler) :
    Except String Response :=
  if request.method != "OPTIONS" then next request
  else if !(isCORSPreflightRequest request) then
    match next request with
    | .error e => .error e
    | .ok response =>
      let varyValue := (hget response.headers hdrVary).getD ""
      let finalVary := append varyValue varyCandidates
      let headers := mergeHeaders response.headers (hFromList [(hdrVary, finalVary)])
      .ok (fromResponse response ⟨some headers, none, none⟩)
  else _preflightSynth context request

/-- The options record of `preflight`. -/
structure PreflightOpts where
  allowOrigins : Option AllowOrigins
  allowCredentials : Option CredValue
  allowHeaders : Option (List String)
  allowMethods : Option (List String)
  maxAge : Option JSNumber
  status : Option Nat

/-- `preflight` from src/middleware.ts: validate `maxAge`, `allowHeaders` and
`allowMethods`, then pre-serialize the bound context. -/
def preflight (options : PreflightOpts) : Except String PreflightContext :=
  let allowOrigins := options.allowOrigins.getD .star
  let status := options.status.getD 204
  match (match options.maxAge with
         | some m =>
           if isNonNegativeInteger m then Except.ok ()
           else .error ("maxAge must be non-negative integer. " ++ jsNumberString m)
         | none => .ok ()) with
  | .error e => .error e
  | .ok _ =>
    match (match options.allowHeaders with
           | some hs => assertTokens "allowHeaders" "<field-name>" hs 0
           | none => .ok ()) with
    | .error e => .error e
    | .ok _ =>
      match (match options.allowMethods with
             | some ms => assertTokens "allowMethods" "<method>" ms 0
             | none => .ok ()) with
      | .error e => .error e
      | .ok _ =>
        let matchOrigin := match allowOrigins with
          | .star => none
          | .list l => some (createOriginMatcher l)
        .ok ⟨matchOrigin,
             options.allowCredentials.map credString,
             options.allowHeaders.map (joinSep ", "),
             options.allowMethods.map (joinSep ", "),
             options.maxAge.map jsNumberString,
             some status⟩

/-! ### Header-set lemmas -/

theorem hlookup_cons (p : String × String) (rest : HeaderSet) (key : String) :
    hlookup (p :: rest) key = if p.1 == key then some p.2 else hlookup rest key := rfl

theorem hlookup_append (a b : HeaderSet) (key : String) :
    hlookup (a ++ b) key =
      match hlookup a key with
      | some v => some v
      | none => hlookup b key := by
  induction a with
  | nil => simp [hlookup]
  | cons p rest ih =>
    by_cases h : p.1 == key
    · simp [hlookup, h]
    · simp only [List.cons_append, hlookup, h]
      exact ih

theorem hlookup_eq_none (hs : HeaderSet) (key : String)
    (h : ∀ p ∈ hs, p.1 ≠ key) : hlookup hs key = none := by
  induction hs with
  | nil => rfl
  | cons p rest ih =>
    have hp : ¬(p.1 == key) = true := by
      simp only [beq_iff_eq]
      exact h p (List.mem_cons_self p rest)
    simp only [hlookup, hp, if_neg]
    exact ih fun q hq => h q (List.mem_cons_of_mem p hq)

theorem hlookup_hremove_self (hs : HeaderSet) (key : String) :
    hlookup (hremove hs key) key = none := by
  apply hlookup_eq_none
  intro p hp
  have := (List.mem_filter.mp hp).2
  simpa [bne_iff_ne] using this

theorem hlookup_hremove_ne (hs : HeaderSet) (key k : String) (h : key ≠ k) :
    hlookup (hremove hs k) key = hlookup hs key := by
  induction hs with
  | nil => rfl
  | cons p rest ih =>
    by_cases hp : p.1 == k
    · have hpk : p.1 = k := beq_iff_eq.mp hp
      have hne : ¬(p.1 == key) = true := by
        simp only [beq_iff_eq, hpk]
        exact fun hc => h hc.symm
      simp only [hremove, List.filter_cons, hp, bne, Bool.not_true, hlookup, hne, if_neg]
      simpa [hremove] using ih
    · have hb : (p.1 != k) = true := by simp [bne, hp]
      simp only [hremove, List.filter_cons, hb]
      by_cases hq : p.1 == key
      · simp [hlookup, hq]
      · simp only [hlookup, hq, if_neg]
        simpa [hremove] using ih

theorem hget_hset_self (hs : HeaderSet) (k v n : String) (h : hKey n = hKey k) :
    hget (hset hs k v) n = some v := by
  unfold hget hset
  rw [h, hlookup_append, hlookup_hremove_self]
  simp [hlookup]

theorem hget_hset_ne (hs : HeaderSet) (k v n : String) (h : hKey n ≠ hKey k) :
    hget (hset hs k v) n = hget hs n := by
  unfold hget hset
  rw [hlookup_append, hlookup_hremove_ne hs (hKey n) (hKey k) h]
  cases hx : hlookup hs (hKey n) with
  | some v => simp
  | none =>
    have : ¬(hKey k == hKey n) = true := by
      simp only [beq_iff_eq]
      exact fun hc => h hc.symm
    simp [hlookup, this]

theorem hget_nil (n : String) : hget ([] : HeaderSet) n = none := rfl

theorem wfHeaders_hset (hs : HeaderSet) (k v : String)
    (hk : hKey (hKey k) = hKey k) (hw : wfHeaders hs) :
    wfHeaders (hset hs k v) := by
  obtain ⟨hpw, hlc⟩ := hw
  constructor
  · rw [hset, List.pairwise_append]
    refine ⟨hpw.sublist (List.filter_sublist hs), List.pairwise_singleton _ _, ?_⟩
    intro a ha b hb
    have h1 := (List.mem_filter.mp ha).2
    have hb1 : b = (hKey k, v) := by simpa using hb
    rw [hb1]
    simpa [bne_iff_ne] using h1
  · intro p hp
    rcases List.mem_append.mp hp with hp1 | hp2
    · exact hlc p (List.filter_sublist hs |>.mem hp1)
    · have : p = (hKey k, v) := by simpa using hp2
      rw [this]
      exact hk

theorem hget_mergeHeaders (l r : HeaderSet) (n : String) (hr : wfHeaders r) :
    hget (mergeHeaders l r) n =
      match hget r n with
      | some v => some v
      | none => hget l n := by
  induction r generalizing l with
  | nil => simp [mergeHeaders, hget, hlookup]
  | cons p rest ih =>
    obtain ⟨hpw, hlc⟩ := hr
    rw [List.pairwise_cons] at hpw
    have hknotin : ∀ q ∈ rest, p.1 ≠ q.1 := hpw.1
    have hwrest : wfHeaders rest :=
      ⟨hpw.2, fun q hq => hlc q (List.mem_cons_of_mem p hq)⟩
    have hklower : hKey p.1 = p.1 := hlc p (List.mem_cons_self p rest)
    have hstep : mergeHeaders l (p :: rest) = mergeHeaders (hset l p.1 p.2) rest := rfl
    rw [hstep, ih (hset l p.1 p.2) hwrest]
    by_cases hn : hKey n = p.1
    · have hrn : hlookup rest (hKey n) = none := by
        apply hlookup_eq_none
        intro q hq
        rw [hn]
        exact fun hc => hknotin q hq hc.symm
      have hcons : hget (p :: rest) n = some p.2 := by
        unfold hget
        rw [hlookup_cons]
        simp [beq_iff_eq, hn.symm]
      rw [hcons]
      have hrn2 : hget rest n = none := hrn
      rw [hrn2]
      exact hget_hset_self l p.1 p.2 n (by rw [hn, hklower])
    · have hcons : hget (p :: rest) n = hget rest n := by
        unfold hget
        rw [hlookup_cons]
        have hne : ¬(p.1 == hKey n) = true := by
          simp only [beq_iff_eq]
          exact fun hc => hn hc.symm
        simp [hne]
      rw [hcons, hget_hset_ne l p.1 p.2 n (by rw [hklower]; exact hn)]

theorem hget_mergeHeaders_right (l r : HeaderSet) (n : String) (v : String)
    (hr : wfHeaders r) (h : hget r n = some v) :
    hget (mergeHeaders l r) n = some v := by
  rw [hget_mergeHeaders l r n hr, h]

theorem hget_mergeHeaders_left (l r : HeaderSet) (n : String)
    (hr : wfHeaders r) (h : hget r n = none) :
    hget (mergeHeaders l r) n = hget l n := by
  rw [hget_mergeHeaders l r n hr, h]

/-- `mergeHeaders` with the singleton Vary header set is `hset` of Vary. -/
theorem merge_vary_single (l : HeaderSet) (v : String) :
    mergeHeaders l (hFromList [(hdrVary, v)]) = hset l hdrVary v := rfl

/-! ### String and validation lemmas -/

theorem append_ne_empty_left (a b : String) (h : a ≠ "") : a ++ b ≠ "" := by
  intro hc
  apply h
  have hd := congrArg String.data hc
  rw [String.data_append] at hd
  have ha : a.data = [] := (List.append_eq_nil.mp (by simpa using hd)).1
  cases a
  simp_all

theorem joinSep_ne_empty (sep : String) (l : List String) (hne : l ≠ [])
    (h : ∀ a ∈ l, a ≠ "") : joinSep sep l ≠ "" := by
  match l with
  | [] => exact absurd rfl hne
  | [x] => simpa [joinSep] using h x (by simp)
  | x :: y :: rest =>
    have hx : x ≠ "" := h x (by simp)
    simpa [joinSep] using
      append_ne_empty_left _ _ (append_ne_empty_left _ _ hx)

theorem reToken_ne_empty (a : String) (h : reToken a = true) : a ≠ "" := by
  unfold reToken at h
  rw [Bool.and_eq_true] at h
  exact bne_iff_ne.mp h.1

theorem assertTokens_ok (subject expected : String) (l : List String) :
    ∀ i, assertTokens subject expected l i = .ok () →
    ∀ a ∈ l, reToken a = true := by
  induction l with
  | nil => intro i _ a ha; cases ha
  | cons x xs ih =>
    intro i h a ha
    by_cases hx : reToken x
    · simp only [assertTokens, hx, if_pos] at h
      rcases List.mem_cons.mp ha with rfl | hmem
      · exact hx
      · exact ih (i + 1) h a hmem
    · simp [assertTokens, hx] at h

/-! ### Constructor characterizations -/

theorem cors_ok_fields (options : CORSHeadersOpts) (ctx : CORSContext)
    (h : cors options = .ok ctx) :
    ctx.matchOrigin = (match options.allowOrigins.getD .star with
      | .star => none
      | .list l => some (createOriginMatcher l)) ∧
    ctx.allowCredentials = options.allowCredentials.map credString ∧
    ctx.exposeHeaders = options.exposeHeaders.map (joinSep ", ") := by
  unfold cors at h
  split at h
  · cases h
  · injection h with h2
    subst h2
    exact ⟨rfl, rfl, rfl⟩

theorem cors_ok_valid (options : CORSHeadersOpts) (ctx : CORSContext)
    (l : List String) (hE : options.exposeHeaders = some l)
    (h : cors options = .ok ctx) : ∀ a ∈ l, reToken a = true := by
  unfold cors at h
  rw [hE] at h
  split at h
  · cases h
  · next u hu =>
    cases u
    exact assertTokens_ok _ _ l 0 hu

theorem preflight_ok_fields (options : PreflightOpts) (ctx : PreflightContext)
    (h : preflight options = .ok ctx) :
    ctx.matchOrigin = (match options.allowOrigins.getD .star with
      | .star => none
      | .list l => some (createOriginMatcher l)) ∧
    ctx.allowCredentials = options.allowCredentials.map credString ∧
    ctx.allowHeaders = options.allowHeaders.map (joinSep ", ") ∧
    ctx.allowMethods = options.allowMethods.map (joinSep ", ") ∧
    ctx.maxAge = options.maxAge.map jsNumberString ∧
    ctx.status = some (options.status.getD 204) := by
  unfold preflight at h
  split at h
  · cases h
  · split at h
    · cases h
    · split at h
      · cases h
      · injection h with h2
        subst h2
        exact ⟨rfl, rfl, rfl, rfl, rfl, rfl⟩

theorem credString_eq (c : CredValue) : credString c = "true" := by
  cases c <;> rfl

/-! ### Branch lemmas for the per-request functions -/

theorem cors_ok_noncors (context : CORSContext) (request : Request) (next : Handler)
    (resp : Response)
    (hc : isCORSRequest request = false) (hn : next request = .ok resp) :
    _cors context request next = .ok ⟨resp.body, resp.status, resp.statusText,
      hset resp.headers hdrVary
        (append ((hget resp.headers hdrVary).getD "") [hdrOrigin])⟩ := by
  unfold _cors
  rw [hn]
  simp [hc, fromResponse, merge_vary_single]

theorem cors_ok_cors (context : CORSContext) (request : Request) (next : Handler)
    (resp : Response)
    (hc : isCORSRequest request = true) (hn : next request = .ok resp) :
    _cors context request next = .ok ⟨resp.body, resp.status, resp.statusText,
      mergeHeaders (corsLeft context request)
        (hset resp.headers hdrVary
          (append ((hget resp.headers hdrVary).getD "") [hdrOrigin]))⟩ := by
  unfold _cors
  rw [hn]
  simp [hc, fromResponse, merge_vary_single]

theorem preflight_req_parts (request : Request)
    (h : isCORSPreflightRequest request = true) :
    request.method = "OPTIONS" ∧
    (∃ o, hget request.headers hdrOrigin = some o) ∧
    (∃ m, hget request.headers AccessControlRequestMethod = some m) ∧
    (∃ hv, hget request.headers AccessControlRequestHeaders = some hv) := by
  unfold isCORSPreflightRequest isCORSRequest hhas at h
  rw [Bool.and_eq_true, Bool.and_eq_true, Bool.and_eq_true] at h
  obtain ⟨⟨⟨h1, h2⟩, h3⟩, h4⟩ := h
  exact ⟨beq_iff_eq.mp h2, Option.isSome_iff_exists.mp h1,
    Option.isSome_iff_exists.mp h3, Option.isSome_iff_exists.mp h4⟩

theorem preflight_not_options (context : PreflightContext) (request : Request)
    (next : Handler) (h : request.method ≠ "OPTIONS") :
    _preflight context request next = next request := by
  unfold _preflight
  simp [bne_iff_ne, h]

theorem preflight_shortcircuit (context : PreflightContext) (request : Request)
    (next : Handler) (h : isCORSPreflightRequest request = true) :
    _preflight context request next = _preflightSynth context request := by
  have hm := (preflight_req_parts request h).1
  unfold _preflight
  simp [bne_iff_ne, hm, h]

theorem preflight_options_nonpre (context : PreflightContext) (request : Request)
    (next : Handler) (resp : Response)
    (hm : request.method = "OPTIONS") (hp : isCORSPreflightRequest request = false)
    (hn : next request = .ok resp) :
    _preflight context request next = .ok ⟨resp.body, resp.status, resp.statusText,
      hset resp.headers hdrVary
        (append ((hget resp.headers hdrVary).getD "") varyCandidates)⟩ := by
  unfold _preflight
  rw [hn]
  simp [bne_iff_ne, hm, hp, fromResponse, merge_vary_single]

theorem hget_optLayer_ne (o : Option String) (H : HeaderSet) (k n : String)
    (h : hKey n ≠ hKey k) :
    hget (match o with | some c => hset H k c | none => H) n = hget H n := by
  cases o with
  | none => rfl
  | some c => exact hget_hset_ne H k c n h

theorem hget_optLayer_self (o : Option String) (H : HeaderSet) (k n : String)
    (h : hKey n = hKey k) (hH : hget H n = none) :
    hget (match o with | some c => hset H k c | none => H) n = o := by
  cases o with
  | none => exact hH
  | some c => exact hget_hset_self H k c n h

set_option maxHeartbeats 1600000 in
theorem preflightSynth_ok (context : PreflightContext) (request : Request)
    (origin reqHeaders reqMethod : String)
    (ho : hget request.headers hdrOrigin = some origin)
    (hh : hget request.headers AccessControlRequestHeaders = some reqHeaders)
    (hm : hget request.headers AccessControlRequestMethod = some reqMethod) :
    ∃ r : Response, _preflightSynth context request = .ok r ∧
      r.body = none ∧
      r.status = context.status.getD 204 ∧
      hget r.headers AccessControlAllowOrigin =
        some (getAllowedOrigin origin context.matchOrigin) ∧
      hget r.headers AccessControlAllowHeaders =
        some (context.allowHeaders.getD reqHeaders) ∧
      hget r.headers AccessControlAllowMethods =
        some (context.allowMethods.getD reqMethod) ∧
      hget r.headers hdrVary =
        some "origin, access-control-request-method, access-control-request-headers" ∧
      hget r.headers AccessControlMaxAge = context.maxAge ∧
      hget r.headers AccessControlAllowCredentials = context.allowCredentials := by
  unfold _preflightSynth
  rw [ho]
  cases ha : context.allowHeaders <;> cases hmt : context.allowMethods <;>
    rw [hh, hm] <;>
    refine ⟨_, rfl, rfl, rfl, ?_, ?_, ?_, ?_, ?_, ?_⟩ <;>
    first
    | (rw [hget_optLayer_ne _ _ _ _ (by decide), hget_optLayer_ne _ _ _ _ (by decide)]
       rfl)
    | (rw [hget_optLayer_ne _ _ _ _ (by decide)]
       exact hget_optLayer_self _ _ _ _ (by decide) rfl)
    | exact hget_optLayer_self _ _ _ _ (by decide)
        (by rw [hget_optLayer_ne _ _ _ _ (by decide)]; rfl)

theorem hget_guardLayer_ne (o : Option String) (cond : String → Bool)
    (H : HeaderSet) (k n : String) (h : hKey n ≠ hKey k) :
    hget (match o with
          | some t => if cond t = true then hset H k t else H
          | none => H) n = hget H n := by
  cases o with
  | none => rfl
  | some t =>
    show hget (if cond t = true then hset H k t else H) n = hget H n
    by_cases hc : cond t = true
    · rw [if_pos hc]
      exact hget_hset_ne H k t n h
    · rw [if_neg hc]

theorem hget_guardLayer_self (o : Option String) (cond : String → Bool)
    (H : HeaderSet) (k n : String) (h : hKey n = hKey k) (hH : hget H n = none) :
    hget (match o with
          | some t => if cond t = true then hset H k t else H
          | none => H) n =
      (match o with
       | some t => if cond t = true then some t else none
       | none => none) := by
  cases o with
  | none => exact hH
  | some t =>
    show hget (if cond t = true then hset H k t else H) n =
      (if cond t = true then some t else none)
    by_cases hc : cond t = true
    · rw [if_pos hc, if_pos hc]
      exact hget_hset_self H k t n h
    · rw [if_neg hc, if_neg hc]
      exact hH

theorem corsLeft_acao (context : CORSContext) (request : Request) :
    hget (corsLeft context request) AccessControlAllowOrigin =
      some (getAllowedOrigin ((hget request.headers hdrOrigin).getD "")
        context.matchOrigin) := by
  unfold corsLeft
  exact (hget_guardLayer_ne context.exposeHeaders _ _ _ _ (by decide)).trans
    ((hget_guardLayer_ne context.allowCredentials _ _ _ _ (by decide)).trans
      (hget_hset_self _ _ _ _ rfl))

theorem corsLeft_acac (context : CORSContext) (request : Request) :
    hget (corsLeft context request) AccessControlAllowCredentials =
      (match context.allowCredentials with
       | some s => if (s != "") = true then some s else none
       | none => none) := by
  unfold corsLeft
  exact (hget_guardLayer_ne context.exposeHeaders _ _ _ _ (by decide)).trans
    (hget_guardLayer_self context.allowCredentials _ _ _ _ rfl
      ((hget_hset_ne [] AccessControlAllowOrigin _ AccessControlAllowCredentials
        (by decide)).trans (hget_nil _)))

theorem corsLeft_aceh (context : CORSContext) (request : Request) :
    hget (corsLeft context request) AccessControlExposeHeaders =
      (match context.exposeHeaders with
       | some t =>
         if (t != "" && !(isCORSPreflightRequest request)) = true then some t
         else none
       | none => none) := by
  unfold corsLeft
  exact hget_guardLayer_self context.exposeHeaders _ _ _ _ rfl
    ((hget_guardLayer_ne context.allowCredentials _ _ _ _ (by decide)).trans
      ((hget_hset_ne [] AccessControlAllowOrigin _ AccessControlExposeHeaders
        (by decide)).trans (hget_nil _)))

/-! ### Claim theorems -/

/-- C1: for every full CORS preflight request (Origin present, method OPTIONS,
both negotiation headers present), `_preflight` never consults the downstream
handler and synthesizes a response with null body, the configured status
(default 204), `Access-Control-Allow-Origin` from `getAllowedOrigin`,
`Access-Control-Allow-Headers` the configured value if set else the request's
`Access-Control-Request-Headers` verbatim, `Access-Control-Allow-Methods`
likewise, `Vary` exactly the fixed three-name list in the fixed order, and
`Access-Control-Max-Age` / `Access-Control-Allow-Credentials` present exactly
when configured. -/
theorem claim_C1 (context : PreflightContext) (request : Request) (next : Handler)
    (origin reqHeaders reqMethod : String)
    (hpre : isCORSPreflightRequest request = true)
    (ho : hget request.headers hdrOrigin = some origin)
    (hh : hget request.headers AccessControlRequestHeaders = some reqHeaders)
    (hm : hget request.headers AccessControlRequestMethod = some reqMethod) :
    (∀ next₁ next₂ : Handler,
      _preflight context request next₁ = _preflight context request next₂) ∧
    ∃ r : Response, _preflight context request next = .ok r ∧
      r.body = none ∧
      r.status = context.status.getD 204 ∧
      hget r.headers AccessControlAllowOrigin =
        some (getAllowedOrigin origin context.matchOrigin) ∧
      hget r.headers AccessControlAllowHeaders =
        some (context.allowHeaders.getD reqHeaders) ∧
      hget r.headers AccessControlAllowMethods =
        some (context.allowMethods.getD reqMethod) ∧
      hget r.headers hdrVary =
        some "origin, access-control-request-method, access-control-request-headers" ∧
      hget r.headers AccessControlMaxAge = context.maxAge ∧
      hget r.headers AccessControlAllowCredentials = context.allowCredentials := by
  constructor
  · intro n₁ n₂
    rw [preflight_shortcircuit context request n₁ hpre,
      preflight_shortcircuit context request n₂ hpre]
  · rw [preflight_shortcircuit context request next hpre]
    exact preflightSynth_ok context request origin reqHeaders reqMethod ho hh hm

theorem claim_C1_witness :
    (∀ next₁ next₂ : Handler,
      _preflight ⟨none, none, none, none, none, none⟩
        ⟨"OPTIONS", [("origin", "http://test.example"),
          ("access-control-request-method", "POST"),
          ("access-control-request-headers", "content-type")]⟩ next₁ =
      _preflight ⟨none, none, none, none, none, none⟩
        ⟨"OPTIONS", [("origin", "http://test.example"),
          ("access-control-request-method", "POST"),
          ("access-control-request-headers", "content-type")]⟩ next₂) ∧
    ∃ r : Response,
      _preflight ⟨none, none, none, none, none, none⟩
        ⟨"OPTIONS", [("origin", "http://test.example"),
          ("access-control-request-method", "POST"),
          ("access-control-request-headers", "content-type")]⟩
        (fun _ => .ok ⟨none, 200, "", []⟩) = .ok r ∧
      r.body = none ∧
      r.status = 204 ∧
      hget r.headers AccessControlAllowOrigin = some "*" ∧
      hget r.headers AccessControlAllowHeaders = some "content-type" ∧
      hget r.headers AccessControlAllowMethods = some "POST" ∧
      hget r.headers hdrVary =
        some "origin, access-control-request-method, access-control-request-headers" ∧
      hget r.headers AccessControlMaxAge = none ∧
      hget r.headers AccessControlAllowCredentials = none :=
  claim_C1 ⟨none, none, none, none, none, none⟩
    ⟨"OPTIONS", [("origin", "http://test.example"),
      ("access-control-request-method", "POST"),
      ("access-control-request-headers", "content-type")]⟩
    (fun _ => .ok ⟨none, 200, "", []⟩)
    "http://test.example" "content-type" "POST" (by decide) rfl rfl rfl

/-- C6: `_preflight` passes every non-OPTIONS request through as `next request`
itself; for an OPTIONS request that is not a full preflight request it returns
the downstream response copied with all three of Origin,
Access-Control-Request-Method, Access-Control-Request-Headers appended to
`Vary` in that fixed order, regardless of which were present on the request. -/
theorem claim_C6 :
    (∀ (context : PreflightContext) (request : Request) (next : Handler),
      request.method ≠ "OPTIONS" → _preflight context request next = next request) ∧
    (∀ (context : PreflightContext) (request : Request) (next : Handler)
       (resp : Response),
      request.method = "OPTIONS" → isCORSPreflightRequest request = false →
      next request = .ok resp →
      ∃ r : Response, _preflight context request next = .ok r ∧
        r.body = resp.body ∧ r.status = resp.status ∧ r.statusText = resp.statusText ∧
        (∀ n, hKey n ≠ "vary" → hget r.headers n = hget resp.headers n) ∧
        hget r.headers hdrVary = some
          (if (hget resp.headers hdrVary).getD "" = "" then
            "origin, access-control-request-method, access-control-request-headers"
           else (hget resp.headers hdrVary).getD "" ++
            ", origin, access-control-request-method, access-control-request-headers")) := by
  constructor
  · exact fun context request next h => preflight_not_options context request next h
  · intro context request next resp hm hp hn
    refine ⟨_, preflight_options_nonpre context request next resp hm hp hn,
      rfl, rfl, rfl, ?_, ?_⟩
    · intro n hnv
      exact hget_hset_ne _ _ _ _
        (fun hc => hnv (hc.trans (rfl : hKey hdrVary = "vary")))
    · rw [hget_hset_self _ _ _ _ rfl]
      by_cases hv : (hget resp.headers hdrVary).getD "" = ""
      · rw [if_pos hv]
        unfold append
        rw [if_pos (beq_iff_eq.mpr hv)]
        rfl
      · rw [if_neg hv]
        unfold append
        rw [if_neg (fun hb => hv (beq_iff_eq.mp hb))]
        rw [String.append_assoc]
        rfl

theorem claim_C6_witness :
    (_preflight ⟨none, none, none, none, none, none⟩ ⟨"GET", []⟩
      (fun _ => .ok ⟨none, 200, "", []⟩) = .ok ⟨none, 200, "", []⟩) ∧
    ∃ r : Response,
      _preflight ⟨none, none, none, none, none, none⟩ ⟨"OPTIONS", []⟩
        (fun _ => .ok ⟨none, 200, "", [("vary", "User-Agent")]⟩) = .ok r ∧
      r.body = none ∧ r.status = 200 ∧ r.statusText = "" ∧
      (∀ n, hKey n ≠ "vary" →
        hget r.headers n = hget [("vary", "User-Agent")] n) ∧
      hget r.headers hdrVary = some
        "User-Agent, origin, access-control-request-method, access-control-request-headers" := by
  constructor
  · exact claim_C6.1 ⟨none, none, none, none, none, none⟩ ⟨"GET", []⟩
      (fun _ => .ok ⟨none, 200, "", []⟩) (by decide)
  · obtain ⟨r, h1, h2, h3, h4, h5, h6⟩ :=
      claim_C6.2 ⟨none, none, none, none, none, none⟩ ⟨"OPTIONS", []⟩
        (fun _ => .ok ⟨none, 200, "", [("vary", "User-Agent")]⟩)
        ⟨none, 200, "", [("vary", "User-Agent")]⟩ rfl (by decide) rfl
    exact ⟨r, h1, h2, h3, h4, h5, by simpa using h6⟩

/-- C10: a full CORS preflight request whose Origin matches no entry of the
configured `allowOrigins` list is still short-circuited exactly like an
allowed one: the downstream handler is never consulted, the response carries
the configured success status (default 204), and
`Access-Control-Allow-Origin` is present with the empty-string value. -/
theorem claim_C10 (options : PreflightOpts) (l : List OriginPattern)
    (context : PreflightContext) (request : Request) (next : Handler)
    (origin : String)
    (hao : options.allowOrigins = some (.list l))
    (hok : preflight options = .ok context)
    (hpre : isCORSPreflightRequest request = true)
    (ho : hget request.headers hdrOrigin = some origin)
    (hdeny : ∀ p ∈ l, matchPattern origin p = false) :
    (∀ next₁ next₂ : Handler,
      _preflight context request next₁ = _preflight context request next₂) ∧
    ∃ r : Response, _preflight context request next = .ok r ∧
      r.status = options.status.getD 204 ∧
      hget r.headers AccessControlAllowOrigin = some "" := by
  obtain ⟨hmo, _, _, _, _, hst⟩ := preflight_ok_fields options context hok
  have hmo2 : context.matchOrigin = some (createOriginMatcher l) := by
    rw [hmo, hao]
    rfl
  obtain ⟨_, _, ⟨rm, hrm⟩, ⟨rh, hrh⟩⟩ := preflight_req_parts request hpre
  obtain ⟨r, heq, _, hstatus, hacao, _⟩ :=
    preflightSynth_ok context request origin rh rm ho hrh hrm
  refine ⟨?_, r, (preflight_shortcircuit context request next hpre).trans heq, ?_, ?_⟩
  · intro n₁ n₂
    rw [preflight_shortcircuit context request n₁ hpre,
      preflight_shortcircuit context request n₂ hpre]
  · rw [hstatus, hst]
    rfl
  · rw [hacao, hmo2]
    have hmatch : createOriginMatcher l origin = false := by
      unfold createOriginMatcher
      rw [List.any_eq_false]
      intro p hp
      rw [hdeny p hp]
      exact Bool.false_ne_true
    simp [getAllowedOrigin, hmatch]

theorem claim_C10_witness :
    (∀ next₁ next₂ : Handler,
      _preflight ⟨some (createOriginMatcher [.literal "https://allowed.example"]),
          none, none, none, none, some 204⟩
        ⟨"OPTIONS", [("origin", "http://test.example"),
          ("access-control-request-method", "POST"),
          ("access-control-request-headers", "content-type")]⟩ next₁ =
      _preflight ⟨some (createOriginMatcher [.literal "https://allowed.example"]),
          none, none, none, none, some 204⟩
        ⟨"OPTIONS", [("origin", "http://test.example"),
          ("access-control-request-method", "POST"),
          ("access-control-request-headers", "content-type")]⟩ next₂) ∧
    ∃ r : Response,
      _preflight ⟨some (createOriginMatcher [.literal "https://allowed.example"]),
          none, none, none, none, some 204⟩
        ⟨"OPTIONS", [("origin", "http://test.example"),
          ("access-control-request-method", "POST"),
          ("access-control-request-headers", "content-type")]⟩
        (fun _ => .ok ⟨none, 200, "", []⟩) = .ok r ∧
      r.status = 204 ∧
      hget r.headers AccessControlAllowOrigin = some "" :=
  claim_C10
    ⟨some (.list [.literal "https://allowed.example"]), none, none, none, none, none⟩
    [.literal "https://allowed.example"]
    ⟨some (createOriginMatcher [.literal "https://allowed.example"]),
      none, none, none, none, some 204⟩
    ⟨"OPTIONS", [("origin", "http://test.example"),
      ("access-control-request-method", "POST"),
      ("access-control-request-headers", "content-type")]⟩
    (fun _ => .ok ⟨none, 200, "", []⟩)
    "http://test.example" rfl rfl (by decide) rfl (by decide)

/-- C5: for every request without an Origin header, `_cors` returns a copy of
the downstream response with body, status and statusText unchanged, every
header other than Vary exactly as downstream set it, no access-control header
added, and exactly the Origin header name appended to Vary (absent Vary
becomes "origin"; an existing value gets ", origin" appended). -/
theorem claim_C5 (context : CORSContext) (request : Request) (next : Handler)
    (resp : Response)
    (h : isCORSRequest request = false) (hn : next request = .ok resp) :
    ∃ r : Response, _cors context request next = .ok r ∧
      r.body = resp.body ∧ r.status = resp.status ∧ r.statusText = resp.statusText ∧
      (∀ n, hKey n ≠ "vary" → hget r.headers n = hget resp.headers n) ∧
      hget r.headers hdrVary = some
        (if (hget resp.headers hdrVary).getD "" = "" then "origin"
         else (hget resp.headers hdrVary).getD "" ++ ", origin") := by
  refine ⟨_, cors_ok_noncors context request next resp h hn, rfl, rfl, rfl, ?_, ?_⟩
  · intro n hnv
    exact hget_hset_ne _ _ _ _
      (fun hc => hnv (hc.trans (rfl : hKey hdrVary = "vary")))
  · rw [hget_hset_self _ _ _ _ rfl]
    by_cases hv : (hget resp.headers hdrVary).getD "" = ""
    · rw [if_pos hv]
      unfold append
      rw [if_pos (beq_iff_eq.mpr hv)]
      rfl
    · rw [if_neg hv]
      unfold append
      rw [if_neg (fun hb => hv (beq_iff_eq.mp hb))]
      rw [String.append_assoc]
      rfl

theorem claim_C5_witness :
    ∃ r : Response,
      _cors ⟨none, none, none⟩ ⟨"GET", []⟩
        (fun _ => .ok ⟨none, 200, "", [("vary", "User-Agent"), ("x-test", "t")]⟩) =
        .ok r ∧
      r.body = none ∧ r.status = 200 ∧ r.statusText = "" ∧
      (∀ n, hKey n ≠ "vary" →
        hget r.headers n = hget [("vary", "User-Agent"), ("x-test", "t")] n) ∧
      hget r.headers hdrVary = some "User-Agent, origin" := by
  obtain ⟨r, h1, h2, h3, h4, h5, h6⟩ :=
    claim_C5 ⟨none, none, none⟩ ⟨"GET", []⟩
      (fun _ => .ok ⟨none, 200, "", [("vary", "User-Agent"), ("x-test", "t")]⟩)
      ⟨none, 200, "", [("vary", "User-Agent"), ("x-test", "t")]⟩ (by decide) rfl
  exact ⟨r, h1, h2, h3, h4, h5, by simpa using h6⟩

/-- C2: for every CORS request, the final headers are
`mergeHeaders(left, headers)` with the downstream headers applied on top, so
any (non-Vary) header the downstream response already set keeps its downstream
value in the returned response; in particular a downstream
`Access-Control-Allow-Origin` of "" survives the wildcard default. -/
theorem claim_C2 (context : CORSContext) (request : Request) (next : Handler)
    (resp : Response) (name value : String)
    (hc : isCORSRequest request = true) (hn : next request = .ok resp)
    (hw : wfHeaders resp.headers) (hnv : hKey name ≠ "vary")
    (hd : hget resp.headers name = some value) :
    (∃ r : Response, _cors context request next = .ok r ∧
      hget r.headers name = some value) ∧
    (∃ r : Response,
      _cors ⟨none, none, none⟩ ⟨"GET", [("origin", "http://test.example")]⟩
        (fun _ => .ok ⟨none, 200, "", [("access-control-allow-origin", "")]⟩) =
        .ok r ∧
      hget r.headers AccessControlAllowOrigin = some "") := by
  constructor
  · refine ⟨_, cors_ok_cors context request next resp hc hn, ?_⟩
    have hwr := wfHeaders_hset resp.headers hdrVary
      (append ((hget resp.headers hdrVary).getD "") [hdrOrigin]) rfl hw
    exact hget_mergeHeaders_right _ _ _ _ hwr
      ((hget_hset_ne _ _ _ _
        (fun h2 => hnv (h2.trans (rfl : hKey hdrVary = "vary")))).trans hd)
  · exact ⟨_, rfl, by decide⟩

theorem claim_C2_witness :
    (∃ r : Response,
      _cors ⟨none, none, none⟩ ⟨"GET", [("origin", "http://test.example")]⟩
        (fun _ => .ok ⟨none, 200, "", [("x-test", "downstream")]⟩) = .ok r ∧
      hget r.headers "x-test" = some "downstream") ∧
    (∃ r : Response,
      _cors ⟨none, none, none⟩ ⟨"GET", [("origin", "http://test.example")]⟩
        (fun _ => .ok ⟨none, 200, "", [("access-control-allow-origin", "")]⟩) =
        .ok r ∧
      hget r.headers AccessControlAllowOrigin = some "") :=
  claim_C2 ⟨none, none, none⟩ ⟨"GET", [("origin", "http://test.example")]⟩
    (fun _ => .ok ⟨none, 200, "", [("x-test", "downstream")]⟩)
    ⟨none, 200, "", [("x-test", "downstream")]⟩ "x-test" "downstream"
    (by decide) rfl (by decide) (by decide) (by decide)

/-- C3: `getAllowedOrigin` returns "*" without a matcher, echoes the origin
when the matcher accepts it, and returns the empty string when the matcher
rejects it — and in the rejection case `_cors` still emits an explicit
empty-string `Access-Control-Allow-Origin` header rather than omitting it. -/
theorem claim_C3 :
    (∀ origin : String, getAllowedOrigin origin none = "*") ∧
    (∀ (origin : String) (m : String → Bool), m origin = true →
      getAllowedOrigin origin (some m) = origin) ∧
    (∀ (origin : String) (m : String → Bool), m origin = false →
      getAllowedOrigin origin (some m) = "") ∧
    (∀ (context : CORSContext) (request : Request) (next : Handler)
       (resp : Response) (origin : String) (m : String → Bool),
      context.matchOrigin = some m → m origin = false →
      hget request.headers hdrOrigin = some origin →
      next request = .ok resp → wfHeaders resp.headers →
      hget resp.headers AccessControlAllowOrigin = none →
      ∃ r : Response, _cors context request next = .ok r ∧
        hget r.headers AccessControlAllowOrigin = some "") := by
  refine ⟨fun origin => rfl,
    fun origin m hm => by simp [getAllowedOrigin, hm],
    fun origin m hm => by simp [getAllowedOrigin, hm], ?_⟩
  intro context request next resp origin m hmo hm ho hn hw hnone
  have hc : isCORSRequest request = true := by
    unfold isCORSRequest hhas
    rw [ho]
    rfl
  refine ⟨_, cors_ok_cors context request next resp hc hn, ?_⟩
  have hwr := wfHeaders_hset resp.headers hdrVary
    (append ((hget resp.headers hdrVary).getD "") [hdrOrigin]) rfl hw
  rw [hget_mergeHeaders_left _ _ _ hwr
    ((hget_hset_ne _ _ _ _ (by decide)).trans hnone)]
  rw [corsLeft_acao, ho, hmo]
  simp [getAllowedOrigin, hm]

theorem claim_C3_witness :
    getAllowedOrigin "http://test.example" none = "*" ∧
    getAllowedOrigin "http://test.example"
      (some (createOriginMatcher [.literal "http://test.example"])) =
      "http://test.example" ∧
    getAllowedOrigin "http://test.example"
      (some (createOriginMatcher [.literal ""])) = "" ∧
    ∃ r : Response,
      _cors ⟨some (createOriginMatcher [.literal ""]), none, none⟩
        ⟨"GET", [("origin", "http://test.example")]⟩
        (fun _ => .ok ⟨none, 200, "", []⟩) = .ok r ∧
      hget r.headers AccessControlAllowOrigin = some "" :=
  ⟨claim_C3.1 "http://test.example",
   claim_C3.2.1 "http://test.example" _ (by decide),
   claim_C3.2.2.1 "http://test.example" _ (by decide),
   claim_C3.2.2.2 ⟨some (createOriginMatcher [.literal ""]), none, none⟩
     ⟨"GET", [("origin", "http://test.example")]⟩
     (fun _ => .ok ⟨none, 200, "", []⟩) ⟨none, 200, "", []⟩
     "http://test.example" (createOriginMatcher [.literal ""])
     rfl (by decide) rfl rfl (by decide) rfl⟩

/-- C4: with a non-empty configured `exposeHeaders` list, the response to a
CORS request carries `Access-Control-Expose-Headers` with the ", "-joined
configured list exactly when the request is not a full CORS preflight
request, and does not carry it (from this middleware) when it is; stated for
downstream responses that do not themselves set the header. -/
theorem claim_C4 (options : CORSHeadersOpts) (l : List String)
    (context : CORSContext) (request : Request) (next : Handler) (resp : Response)
    (hE : options.exposeHeaders = some l) (hne : l ≠ [])
    (hok : cors options = .ok context)
    (hc : isCORSRequest request = true) (hn : next request = .ok resp)
    (hw : wfHeaders resp.headers)
    (hd : hget resp.headers AccessControlExposeHeaders = none) :
    ∃ r : Response, _cors context request next = .ok r ∧
      hget r.headers AccessControlExposeHeaders =
        (if isCORSPreflightRequest request then none
         else some (joinSep ", " l)) := by
  obtain ⟨_, _, hEH⟩ := cors_ok_fields options context hok
  rw [hE] at hEH
  have hEH2 : context.exposeHeaders = some (joinSep ", " l) := hEH
  have hvalid := cors_ok_valid options context l hE hok
  have hjoin : joinSep ", " l ≠ "" :=
    joinSep_ne_empty _ _ hne (fun a ha => reToken_ne_empty a (hvalid a ha))
  have hb : (joinSep ", " l != "") = true := bne_iff_ne.mpr hjoin
  refine ⟨_, cors_ok_cors context request next resp hc hn, ?_⟩
  have hwr := wfHeaders_hset resp.headers hdrVary
    (append ((hget resp.headers hdrVary).getD "") [hdrOrigin]) rfl hw
  rw [hget_mergeHeaders_left _ _ _ hwr
    ((hget_hset_ne _ _ _ _ (by decide)).trans hd)]
  rw [corsLeft_aceh, hEH2]
  cases hp : isCORSPreflightRequest request <;> simp [hp, hb]

theorem claim_C4_witness :
    ((some ["x-test"] : Option (List String)) = some ["x-test"] ∧
      ["x-test"] ≠ [] ∧
      cors ⟨none, none, some ["x-test"]⟩ =
        .ok ⟨none, none, some "x-test"⟩) ∧
    (∃ r : Response,
      _cors ⟨none, none, some "x-test"⟩
        ⟨"GET", [("origin", "http://test.example")]⟩
        (fun _ => .ok ⟨none, 200, "", []⟩) = .ok r ∧
      hget r.headers AccessControlExposeHeaders = some "x-test") ∧
    (∃ r : Response,
      _cors ⟨none, none, some "x-test"⟩
        ⟨"OPTIONS", [("origin", "http://test.example"),
          ("access-control-request-method", ""),
          ("access-control-request-headers", "")]⟩
        (fun _ => .ok ⟨none, 200, "", []⟩) = .ok r ∧
      hget r.headers AccessControlExposeHeaders = none) :=
  ⟨⟨rfl, by decide, rfl⟩,
   claim_C4 ⟨none, none, some ["x-test"]⟩ ["x-test"] ⟨none, none, some "x-test"⟩
     ⟨"GET", [("origin", "http://test.example")]⟩
     (fun _ => .ok ⟨none, 200, "", []⟩) ⟨none, 200, "", []⟩
     rfl (by decide) rfl (by decide) rfl (by decide) rfl,
   claim_C4 ⟨none, none, some ["x-test"]⟩ ["x-test"] ⟨none, none, some "x-test"⟩
     ⟨"OPTIONS", [("origin", "http://test.example"),
       ("access-control-request-method", ""),
       ("access-control-request-headers", "")]⟩
     (fun _ => .ok ⟨none, 200, "", []⟩) ⟨none, 200, "", []⟩
     rfl (by decide) rfl (by decide) rfl (by decide) rfl⟩

/-- C8: for every configuration accepted at construction (the declared type of
`allowCredentials` is the literal `true` or the literal string "true"), the
`Access-Control-Allow-Credentials` header emitted by the cors and preflight
middlewares is either exactly "true" or absent; stated for downstream
responses that do not themselves set the header. -/
theorem claim_C8 :
    (∀ (options : CORSHeadersOpts) (context : CORSContext) (request : Request)
       (next : Handler) (resp : Response),
      cors options = .ok context → isCORSRequest request = true →
      next request = .ok resp → wfHeaders resp.headers →
      hget resp.headers AccessControlAllowCredentials = none →
      ∃ r : Response, _cors context request next = .ok r ∧
        (hget r.headers AccessControlAllowCredentials = some "true" ∨
         hget r.headers AccessControlAllowCredentials = none)) ∧
    (∀ (options : PreflightOpts) (context : PreflightContext) (request : Request)
       (next : Handler),
      preflight options = .ok context → isCORSPreflightRequest request = true →
      ∃ r : Response, _preflight context request next = .ok r ∧
        (hget r.headers AccessControlAllowCredentials = some "true" ∨
         hget r.headers AccessControlAllowCredentials = none)) := by
  constructor
  · intro options context request next resp hok hc hn hw hd
    obtain ⟨_, hcred, _⟩ := cors_ok_fields options context hok
    refine ⟨_, cors_ok_cors context request next resp hc hn, ?_⟩
    have hwr := wfHeaders_hset resp.headers hdrVary
      (append ((hget resp.headers hdrVary).getD "") [hdrOrigin]) rfl hw
    rw [hget_mergeHeaders_left _ _ _ hwr
      ((hget_hset_ne _ _ _ _ (by decide)).trans hd)]
    rw [corsLeft_acac, hcred]
    cases options.allowCredentials with
    | none => exact Or.inr rfl
    | some c =>
      rw [show Option.map credString (some c) = some "true" by cases c <;> rfl]
      exact Or.inl (by decide)
  · intro options context request next hok hpre
    obtain ⟨_, hcred, _, _, _, _⟩ := preflight_ok_fields options context hok
    obtain ⟨_, ⟨o, ho⟩, ⟨rm, hrm⟩, ⟨rh, hrh⟩⟩ := preflight_req_parts request hpre
    obtain ⟨r, heq, _, _, _, _, _, _, _, hacac⟩ :=
      preflightSynth_ok context request o rh rm ho hrh hrm
    refine ⟨r, (preflight_shortcircuit context request next hpre).trans heq, ?_⟩
    rw [hacac, hcred]
    cases options.allowCredentials with
    | none => exact Or.inr rfl
    | some c =>
      rw [show Option.map credString (some c) = some "true" by cases c <;> rfl]
      exact Or.inl rfl

theorem claim_C8_witness :
    (∃ r : Response,
      _cors ⟨none, some "true", none⟩
        ⟨"GET", [("origin", "http://test.example")]⟩
        (fun _ => .ok ⟨none, 200, "", []⟩) = .ok r ∧
      (hget r.headers AccessControlAllowCredentials = some "true" ∨
       hget r.headers AccessControlAllowCredentials = none)) ∧
    (∃ r : Response,
      _preflight ⟨none, some "true", none, none, none, some 204⟩
        ⟨"OPTIONS", [("origin", "http://test.example"),
          ("access-control-request-method", "POST"),
          ("access-control-request-headers", "content-type")]⟩
        (fun _ => .ok ⟨none, 200, "", []⟩) = .ok r ∧
      (hget r.headers AccessControlAllowCredentials = some "true" ∨
       hget r.headers AccessControlAllowCredentials = none)) :=
  ⟨claim_C8.1 ⟨none, some .boolTrue, none⟩ ⟨none, some "true", none⟩
     ⟨"GET", [("origin", "http://test.example")]⟩
     (fun _ => .ok ⟨none, 200, "", []⟩) ⟨none, 200, "", []⟩
     rfl (by decide) rfl (by decide) rfl,
   claim_C8.2 ⟨none, some .strTrue, none, none, none, none⟩
     ⟨none, some "true", none, none, none, some 204⟩
     ⟨"OPTIONS", [("origin", "http://test.example"),
       ("access-control-request-method", "POST"),
       ("access-control-request-headers", "content-type")]⟩
     (fun _ => .ok ⟨none, 200, "", []⟩) rfl (by decide)⟩

/-- C7: `cors` with an empty-string expose header fails synchronously with the
exact indexed message; `preflight` with maxAge -1 or NaN fails synchronously;
and the per-request functions `_cors` and `_preflight` never produce an error
of their own: any error result is the downstream handler's own result,
propagated untouched. -/
theorem claim_C7 :
    cors ⟨none, none, some [""]⟩ =
      .error "exposeHeaders[0] is invalid <field-name> format. \"\"" ∧
    (∃ e, preflight ⟨none, none, none, none, some (.val (-1)), none⟩ = .error e) ∧
    (∃ e, preflight ⟨none, none, none, none, some .nan, none⟩ = .error e) ∧
    (∀ (context : CORSContext) (request : Request) (next : Handler),
      (∃ r, _cors context request next = .ok r) ∨
      _cors context request next = next request) ∧
    (∀ (context : PreflightContext) (request : Request) (next : Handler),
      (∃ r, _preflight context request next = .ok r) ∨
      _preflight context request next = next request) := by
  refine ⟨rfl, ⟨_, rfl⟩, ⟨_, rfl⟩, ?_, ?_⟩
  · intro context request next
    cases hn : next request with
    | error e =>
      right
      unfold _cors
      rw [hn]
    | ok resp =>
      left
      cases hc : isCORSRequest request with
      | false => exact ⟨_, cors_ok_noncors context request next resp hc hn⟩
      | true => exact ⟨_, cors_ok_cors context request next resp hc hn⟩
  · intro context request next
    by_cases hm : request.method = "OPTIONS"
    · by_cases hp : isCORSPreflightRequest request = true
      · left
        rw [preflight_shortcircuit context request next hp]
        obtain ⟨_, ⟨o, ho⟩, ⟨rm, hrm⟩, ⟨rh, hrh⟩⟩ := preflight_req_parts request hp
        obtain ⟨r, heq, _⟩ := preflightSynth_ok context request o rh rm ho hrh hrm
        exact ⟨r, heq⟩
      · have hp2 : isCORSPreflightRequest request = false := by simpa using hp
        cases hn : next request with
        | error e =>
          right
          unfold _preflight
          rw [hn]
          simp [bne_iff_ne, hm, hp2]
        | ok resp =>
          exact Or.inl ⟨_, preflight_options_nonpre context request next resp hm hp2 hn⟩
    · right
      exact preflight_not_options context request next hm

/-- C9: the Vary append helper performs no de-duplication: an empty existing
value yields the ", "-joined values to add, otherwise the joined values are
appended after ", ", so appending an already-present value produces a repeated
entry — observable through `_cors`, which turns a downstream Vary of "origin"
into "origin, origin". -/
theorem claim_C9 :
    (∀ (v : String) (l : List String),
      append v l = if v = "" then joinSep ", " l
        else v ++ ", " ++ joinSep ", " l) ∧
    append "origin" ["origin"] = "origin, origin" ∧
    (∃ r : Response,
      _cors ⟨none, none, none⟩ ⟨"GET", []⟩
        (fun _ => .ok ⟨none, 200, "", [("vary", "origin")]⟩) = .ok r ∧
      hget r.headers hdrVary = some "origin, origin") := by
  refine ⟨?_, rfl, ⟨_, rfl, by decide⟩⟩
  intro v l
  unfold append
  by_cases hv : v = ""
  · rw [if_pos (beq_iff_eq.mpr hv), if_pos hv]
  · rw [if_neg (fun hb => hv (beq_iff_eq.mp hb)), if_neg hv]

end CorsMw
